import Mathlib

/-!
Shallow embedding of the consensus coordinator in `src/src/main.rs`
(the `llm-consensus` program).

The program is an actor system: one `Coordinator` actor owning the round
state, and several `LlmActor` responders.  Each handler processes one
message at a time against the actor's own state, so every handler is
embedded as a pure function from the pre-state (plus the message payload)
to the post-state together with the list of messages it sends
(`do_send` calls) and the `bool` it returns.  A handler that can hit a
Rust `.expect(..)` failure returns an `Option`: `none` models the
aborted handler (process failure), in which case no messages are sent.

Randomness (`SliceRandom::choose`) is modelled by threading an arbitrary
natural number `r` and picking index `r % length`; `choose` on an empty
slice returns `none`, exactly as in `rand`.

`HashMap` fields are modelled as association lists whose `insert`
replaces the value of an existing key and otherwise appends, matching
`HashMap::insert` key-set semantics.  The registry `llm_actors` maps
names to actor addresses; the address payload plays no role in any
property, so the registry is carried as the list of registered names,
and `do_send` to a looked-up address is recorded as an output message
tagged with the target name.  `evaluation_count` is a `u32` in the
source; increments are taken modulo `2 ^ 32`.
-/

namespace LlmConsensus

/-- Rust `enum Feedback { Good, NeedsRefinement }` (src/src/main.rs lines 8-12). -/
inductive Feedback where
  | Good : Feedback
  | NeedsRefinement : Feedback
deriving DecidableEq

/-- Messages a Coordinator handler sends to an `LlmActor` address via
`do_send`, tagged with the name of the target actor:
`AskQuestion(String)`, `EvaluateAnswer { question, answer }`,
`RefineAnswer { question, answer }`. -/
inductive OutMsg where
  | askQuestion : String → String → OutMsg
  | evaluateAnswer : String → String → String → OutMsg
  | refineAnswer : String → String → String → OutMsg
deriving DecidableEq

/-- The `Coordinator` actor state (src/src/main.rs lines 188-195).
`llm_actors : HashMap<String, Addr<LlmActor>>` is carried as its list of
keys; `feedback : HashMap<String, Feedback>` as an association list. -/
structure Coordinator where
  llm_actors : List String
  current_question : Option String
  feedback : List (String × Feedback)
  answer : Option String
  evaluation_count : Nat
deriving DecidableEq

/-- Initial Coordinator state, from `#[derive(Default)]`. -/
def initialCoordinator : Coordinator :=
  { llm_actors := [], current_question := none, feedback := [],
    answer := none, evaluation_count := 0 }

/-- Rust `HashMap::insert` on the feedback map: replace the value of an
existing key, otherwise add the new entry. -/
def insertFeedback (m : List (String × Feedback)) (k : String) (v : Feedback) :
    List (String × Feedback) :=
  if m.any (fun p => p.1 = k) then
    m.map (fun p => if p.1 = k then (k, v) else p)
  else
    m ++ [(k, v)]

/-- Rust `HashMap::insert` on the registry, carried as its key list. -/
def insertName (l : List String) (k : String) : List String :=
  if k ∈ l then l else l ++ [k]

/-- Rust `SliceRandom::choose`: `none` on an empty slice, otherwise an
arbitrary element, selected here by the threaded index `r`. -/
def choose {α : Type} (l : List α) (r : Nat) : Option α :=
  l.get? (r % l.length)

/-- Rust `Coordinator::reset` (src/src/main.rs lines 198-203): clear the
question, the answer, the feedback map and the evaluation count.  The
registry is untouched. -/
def Coordinator.reset (s : Coordinator) : Coordinator :=
  { s with current_question := none, answer := none, feedback := [],
           evaluation_count := 0 }

/-- Source `Handler<Register> for Coordinator` (lines 210-218): insert the
actor into the registry and return `true`. -/
def handleRegister (s : Coordinator) (name : String) : Coordinator × Bool :=
  ({ s with llm_actors := insertName s.llm_actors name }, true)

/-- Source `Handler<AskQuestion> for Coordinator` (lines 220-240): record
`current_question = Some(question)`, then pick a random registry key.
On an empty registry `keys.choose(..).expect(..)` aborts the handler
(modelled as `none`) — the `None => false` arm of the final `match` is
unreachable, because a chosen key is always present in the map it was
drawn from. -/
def handleAskQuestion (s : Coordinator) (question : String) (r : Nat) :
    Option (Coordinator × List OutMsg × Bool) :=
  let s1 := { s with current_question := some question }
  match choose s1.llm_actors r with
  | none => none
  | some name =>
      if name ∈ s1.llm_actors then
        some (s1, [OutMsg.askQuestion name question], true)
      else
        some (s1, [], false)

/-- Source `Handler<AnswerQuestion> for Coordinator` (lines 242-256): record
`answer = Some(text)`, send `EvaluateAnswer` with the current question
and this answer to every registered actor, increment
`evaluation_count`.  The `current_question.as_ref().expect(..)` sits
inside the per-actor closure, so it aborts (`none`) exactly when the
registry is non-empty and no question is recorded.  The feedback map is
not touched. -/
def handleAnswerQuestion (s : Coordinator) (text : String) :
    Option (Coordinator × List OutMsg × Bool) :=
  let s1 := { s with answer := some text,
                     evaluation_count := (s.evaluation_count + 1) % 2 ^ 32 }
  if s.llm_actors.isEmpty then
    some (s1, [], true)
  else
    match s.current_question with
    | none => none
    | some q =>
        some (s1, s.llm_actors.map (fun n => OutMsg.evaluateAnswer n q text), true)

/-- Source `Handler<AnswerEvaluation> for Coordinator` (lines 259-290): record
`feedback[name] = evaluation`; if the feedback map now has as many
entries as the registry and not every entry is `Good`, pick a random
name among those that voted `NeedsRefinement` and send it a
`RefineAnswer` with the current question and answer.  The three
`.expect(..)` calls (empty rejecting set, missing question, missing
answer) abort the handler (`none`). -/
def handleAnswerEvaluation (s : Coordinator) (name : String) (evaluation : Feedback)
    (r : Nat) : Option (Coordinator × List OutMsg × Bool) :=
  let fb := insertFeedback s.feedback name evaluation
  let s1 := { s with feedback := fb }
  if fb.length = s1.llm_actors.length then
    if ¬ fb.all (fun p => p.2 = Feedback.Good) then
      let keys := (fb.filter (fun p => p.2 = Feedback.NeedsRefinement)).map Prod.fst
      match choose keys r with
      | none => none
      | some selected_key =>
          match s1.current_question with
          | none => none
          | some q =>
              match s1.answer with
              | none => none
              | some a =>
                  if selected_key ∈ s1.llm_actors then
                    some (s1, [OutMsg.refineAnswer selected_key q a], true)
                  else
                    some (s1, [], false)
    else
      some (s1, [], true)
  else
    some (s1, [], true)

/-- Source `Handler<AnswerRefinement> for Coordinator` (lines 293-313): record
`answer = Some(text)`; if `evaluation_count < 5`, increment it, clear
the feedback map and send `EvaluateAnswer` for the new answer to every
registered actor (the question `.expect(..)` again aborts only when the
registry is non-empty and no question is recorded); otherwise overwrite
every feedback value with `Good`. -/
def handleAnswerRefinement (s : Coordinator) (text : String) :
    Option (Coordinator × List OutMsg × Bool) :=
  let s1 := { s with answer := some text }
  if s1.evaluation_count < 5 then
    let s2 := { s1 with evaluation_count := (s1.evaluation_count + 1) % 2 ^ 32,
                        feedback := [] }
    if s2.llm_actors.isEmpty then
      some (s2, [], true)
    else
      match s2.current_question with
      | none => none
      | some q =>
          some (s2, s2.llm_actors.map (fun n => OutMsg.evaluateAnswer n q text), true)
  else
    some ({ s1 with feedback := s1.feedback.map (fun p => (p.1, Feedback.Good)) },
          [], true)

/-- Source `Handler<AnswerReadinessRequest> for Coordinator` (lines 316-325):
pure read returning `answer.is_some() && !feedback.is_empty() &&
feedback.len() == llm_actors.len() && all values Good`. -/
def handleAnswerReadiness (s : Coordinator) : Coordinator × Bool :=
  (s, s.answer.isSome && !s.feedback.isEmpty &&
      (s.feedback.length == s.llm_actors.length) &&
      s.feedback.all (fun p => p.2 = Feedback.Good))

/-- The sentinel string returned by `GetAnswer` when no answer is set. -/
def notReadySentinel : String :=
  "System error: Requested answer when answer was not ready."

/-- Source `Handler<GetAnswer> for Coordinator` (lines 327-336): pure read
returning the answer if set, else the sentinel error string. -/
def handleGetAnswer (s : Coordinator) : Coordinator × String :=
  (s, match s.answer with
      | some answer => answer
      | none => notReadySentinel)

/-- Source `Handler<Reset> for Coordinator` (lines 338-345). -/
def handleReset (s : Coordinator) : Coordinator × Bool :=
  (s.reset, true)

/-! ### The responder's verdict parsing (`Handler<EvaluateAnswer> for LlmActor`)

`result.split("\n")` splits on the one-character separator; it is
embedded at the character level so that it computes by structural
recursion. -/

/-- Rust `str::split` with the one-character separator `'\n'`:
the (possibly empty) segments between newlines, in order. -/
def splitLines : List Char → List (List Char)
  | [] => [[]]
  | c :: cs =>
      let rest := splitLines cs
      if c = '\n' then [] :: rest
      else
        match rest with
        | [] => [[c]]
        | h :: t => (c :: h) :: t

/-- The `match` on the cleaned first line (lines 144-152): `"Good"` maps
to `Good`, `"NeedsRefinement"` maps to `NeedsRefinement`, and the
catch-all arm logs an anomaly and also yields `NeedsRefinement`. -/
def parseVerdict (cleaned : String) : Feedback :=
  if cleaned = "Good" then Feedback.Good
  else if cleaned = "NeedsRefinement" then Feedback.NeedsRefinement
  else Feedback.NeedsRefinement

/-- Lines 139-153 of the `EvaluateAnswer` completion continuation: split
the response on newlines, drop empty segments, clean the first segment
by removing every space (`replace(" ", "")`), parse it as the verdict,
and join the remaining segments with `"\n\n"` as the reasoning.
`result_parts[0]` on an empty vector aborts the task (`none`), so no
`AnswerEvaluation` message reaches the Coordinator in that case. -/
def parseEvaluation (result : String) : Option (Feedback × String) :=
  match (splitLines result.toList).filter (fun l => l ≠ []) with
  | [] => none
  | first :: rest =>
      let cleaned_result := String.mk (first.filter (fun c => c ≠ ' '))
      let reasoning := String.mk (List.intercalate ['\n', '\n'] rest)
      some (parseVerdict cleaned_result, reasoning)

/-- The `AnswerEvaluation { name, evaluation, reasoning }` message an
`LlmActor` named `name` sends the Coordinator for a completion response
`result`, or `none` when the parsing task aborts. -/
def llmEvaluationMessage (name : String) (result : String) :
    Option (String × Feedback × String) :=
  match parseEvaluation result with
  | none => none
  | some (evaluation, reasoning) => some (name, evaluation, reasoning)

/-! ### Messages available before any submission

Before the first `AskQuestion` is submitted, the only messages the
Coordinator can receive are `Register` (sent by `main`), `Reset`,
`AnswerReadinessRequest` and `GetAnswer` (sent by the driver loop):
`AnswerQuestion`, `AnswerEvaluation` and `AnswerRefinement` are only
ever sent by responder tasks spawned in reaction to a submission. -/

/-- A message the Coordinator can receive before any submission. -/
inductive PreSubmitMsg where
  | register : String → PreSubmitMsg
  | resetMsg : PreSubmitMsg
  | readiness : PreSubmitMsg
  | fetch : PreSubmitMsg

/-- Effect of one pre-submission message on the Coordinator state. -/
def stepPreSubmit (s : Coordinator) : PreSubmitMsg → Coordinator
  | PreSubmitMsg.register n => (handleRegister s n).1
  | PreSubmitMsg.resetMsg => (handleReset s).1
  | PreSubmitMsg.readiness => (handleAnswerReadiness s).1
  | PreSubmitMsg.fetch => (handleGetAnswer s).1

/-- The Coordinator state after a sequence of pre-submission messages. -/
def runPreSubmit (msgs : List PreSubmitMsg) : Coordinator :=
  msgs.foldl stepPreSubmit initialCoordinator

/-- The §3 invariant: `current_answer` is defined whenever `votes` is
non-empty. -/
def VotesImplyAnswer (s : Coordinator) : Prop :=
  s.feedback ≠ [] → s.answer.isSome = true

/-! ### Helper lemmas -/

/-- On a non-empty list, `choose` yields an element of the list. -/
theorem choose_eq_some_of_ne_nil {α : Type} (l : List α) (r : Nat) (h : l ≠ []) :
    ∃ a, choose l r = some a ∧ a ∈ l := by
  have hlt : r % l.length < l.length := Nat.mod_lt _ (List.length_pos.mpr h)
  refine ⟨l.get ⟨r % l.length, hlt⟩, ?_, List.get_mem _ _ _⟩
  simp [choose, List.get?_eq_get hlt]

/-- Whenever `AskQuestion` completes, the post-state is the pre-state
with the question recorded; nothing else changes. -/
theorem handleAskQuestion_state {s s' : Coordinator} {q : String} {r : Nat}
    {out : List OutMsg} {b : Bool}
    (h : handleAskQuestion s q r = some (s', out, b)) :
    s' = { s with current_question := some q } := by
  simp only [handleAskQuestion] at h
  split at h
  · exact absurd h (by simp)
  · split at h <;>
      · simp only [Option.some.injEq, Prod.mk.injEq] at h
        exact h.1.symm

/-- Whenever `AnswerQuestion` completes, the post-state is the pre-state
with the answer recorded and the count incremented; nothing else
changes (in particular the feedback map is untouched). -/
theorem handleAnswerQuestion_state {s s' : Coordinator} {text : String}
    {out : List OutMsg} {b : Bool}
    (h : handleAnswerQuestion s text = some (s', out, b)) :
    s' = { s with answer := some text,
                  evaluation_count := (s.evaluation_count + 1) % 2 ^ 32 } := by
  simp only [handleAnswerQuestion] at h
  split at h
  · simp only [Option.some.injEq, Prod.mk.injEq] at h
    exact h.1.symm
  · split at h
    · exact absurd h (by simp)
    · simp only [Option.some.injEq, Prod.mk.injEq] at h
      exact h.1.symm

/-- Whenever `AnswerRefinement` completes, the new answer is recorded in
the post-state. -/
theorem handleAnswerRefinement_answer {s s' : Coordinator} {text : String}
    {out : List OutMsg} {b : Bool}
    (h : handleAnswerRefinement s text = some (s', out, b)) :
    s'.answer = some text := by
  simp only [handleAnswerRefinement] at h
  split at h
  · split at h
    · simp only [Option.some.injEq, Prod.mk.injEq] at h
      rw [← h.1]
    · split at h
      · exact absurd h (by simp)
      · simp only [Option.some.injEq, Prod.mk.injEq] at h
        rw [← h.1]
  · simp only [Option.some.injEq, Prod.mk.injEq] at h
    rw [← h.1]

/-- Whenever `AnswerEvaluation` completes, the post-state is the
pre-state with the vote inserted; nothing else changes. -/
theorem handleAnswerEvaluation_state {s s' : Coordinator} {name : String}
    {ev : Feedback} {r : Nat} {out : List OutMsg} {b : Bool}
    (h : handleAnswerEvaluation s name ev r = some (s', out, b)) :
    s' = { s with feedback := insertFeedback s.feedback name ev } := by
  simp only [handleAnswerEvaluation] at h
  split at h
  · split at h
    · split at h
      · exact absurd h (by simp)
      · split at h
        · exact absurd h (by simp)
        · split at h
          · exact absurd h (by simp)
          · split at h <;>
              · simp only [Option.some.injEq, Prod.mk.injEq] at h
                exact h.1.symm
    · simp only [Option.some.injEq, Prod.mk.injEq] at h
      exact h.1.symm
  · simp only [Option.some.injEq, Prod.mk.injEq] at h
    exact h.1.symm

/-- Pre-submission messages never set an answer. -/
theorem preSubmit_keeps_answer_none (msgs : List PreSubmitMsg) :
    ∀ s : Coordinator, s.answer = none → (msgs.foldl stepPreSubmit s).answer = none := by
  induction msgs with
  | nil => intro s h; exact h
  | cons m ms ih =>
      intro s h
      refine ih _ ?_
      cases m <;>
        simp [stepPreSubmit, handleRegister, handleReset, Coordinator.reset,
              handleAnswerReadiness, handleGetAnswer, h]

/-! ### Claim theorems -/

/-- Claim C1: the readiness query returns `true` if and only if an answer
exists, the feedback map is non-empty, it holds one entry per registered
actor (`len(votes) == len(registry)`), and every recorded vote is
`Good`; and the handler leaves the Coordinator state unchanged. -/
theorem C1_readiness (s : Coordinator) :
    ((handleAnswerReadiness s).2 = true ↔
      (s.answer.isSome = true ∧ s.feedback ≠ [] ∧
       s.feedback.length = s.llm_actors.length ∧
       ∀ p ∈ s.feedback, p.2 = Feedback.Good)) ∧
    (handleAnswerReadiness s).1 = s := by
  constructor
  · simp [handleAnswerReadiness, List.all_eq_true, List.isEmpty_iff, and_assoc]
  · rfl

/-- Witness for C1: a concrete unanimous one-actor state is ready. -/
theorem C1_readiness_witness :
    (handleAnswerReadiness
      ⟨["A"], some "Q", [("A", Feedback.Good)], some "ans", 1⟩).2 = true :=
  (C1_readiness _).1.mpr (by decide)

/-- Claim C3 (behaviour at the failing input): a `Submit` arriving while
the registry is empty does not produce the negative acknowledgment
`false`; the handler aborts on `keys.choose(..).expect(..)` (after
having already recorded the question), modelled as `none`. -/
theorem C3_empty_registry_aborts :
    handleAskQuestion initialCoordinator "Q" 0 = none := by decide

/-- Claim C8: `reset` clears the question, the answer, the feedback map
and the evaluation count, and both `reset` and the `Reset` handler are
idempotent. -/
theorem C8_reset_idempotent (s : Coordinator) :
    (Coordinator.reset s).current_question = none ∧
    (Coordinator.reset s).answer = none ∧
    (Coordinator.reset s).feedback = [] ∧
    (Coordinator.reset s).evaluation_count = 0 ∧
    Coordinator.reset (Coordinator.reset s) = Coordinator.reset s ∧
    (handleReset (handleReset s).1).1 = (handleReset s).1 :=
  ⟨rfl, rfl, rfl, rfl, rfl, rfl⟩

/-- Claim C10: a completion response whose newline segments are all
empty (such as the empty string) makes the evaluation task abort on
`result_parts[0]`, so no `AnswerEvaluation` message is sent to the
Coordinator. -/
theorem C10_empty_response (name text : String)
    (h : ∀ l ∈ splitLines text.toList, l = []) :
    parseEvaluation text = none ∧ llmEvaluationMessage name text = none := by
  have hf : List.filter (fun l => !decide (l = [])) (splitLines text.data) = [] := by
    rw [List.filter_eq_nil_iff]
    intro a ha
    simp [h a ha]
  exact ⟨by simp [parseEvaluation, hf], by simp [llmEvaluationMessage, parseEvaluation, hf]⟩

/-- Witness for C10 at the empty response. -/
theorem C10_empty_response_witness :
    parseEvaluation "" = none ∧ llmEvaluationMessage "A" "" = none :=
  C10_empty_response "A" "" (by decide)

/-- Claim C5: for a response with at least one non-empty newline segment,
the verdict is `Good` exactly when the first non-empty segment with its
spaces removed equals `"Good"`; it is `NeedsRefinement` when that equals
`"NeedsRefinement"` and also for every other value; the reasoning is the
remaining non-empty segments rejoined with a blank line, empty when none
remain. -/
theorem C5_verdict_parsing (text : String) (first : List Char) (rest : List (List Char))
    (h : (splitLines text.toList).filter (fun l => l ≠ []) = first :: rest) :
    ∃ v reasoning, parseEvaluation text = some (v, reasoning) ∧
      (v = Feedback.Good ↔ String.mk (first.filter (fun c => c ≠ ' ')) = "Good") ∧
      (String.mk (first.filter (fun c => c ≠ ' ')) = "NeedsRefinement" →
        v = Feedback.NeedsRefinement) ∧
      (String.mk (first.filter (fun c => c ≠ ' ')) ≠ "Good" →
        v = Feedback.NeedsRefinement) ∧
      reasoning = String.mk (List.intercalate ['\n', '\n'] rest) ∧
      (rest = [] → reasoning = "") := by
  refine ⟨parseVerdict (String.mk (first.filter (fun c => c ≠ ' '))),
          String.mk (List.intercalate ['\n', '\n'] rest), ?_, ?_, ?_, ?_, rfl, ?_⟩
  · simp only [parseEvaluation]
    rw [h]
  · unfold parseVerdict
    split_ifs with h1 h2
    · exact iff_of_true rfl h1
    · exact iff_of_false (by decide) h1
    · exact iff_of_false (by decide) h1
  · intro hn
    unfold parseVerdict
    rw [hn]
    decide
  · intro hg
    unfold parseVerdict
    rw [if_neg hg]
    split_ifs <;> rfl
  · intro hrest
    subst hrest
    rfl

/-- Witness for C5: a two-line response whose first line carries an
internal space still parses as a `Good` verdict with the second line as
reasoning. -/
theorem C5_verdict_parsing_witness :
    ∃ v reasoning, parseEvaluation "Go od\nfine" = some (v, reasoning) ∧
      v = Feedback.Good ∧ reasoning = "fine" := by
  obtain ⟨v, reasoning, h1, h2, -, -, h5, -⟩ :=
    C5_verdict_parsing "Go od\nfine" ['G', 'o', ' ', 'o', 'd'] [['f', 'i', 'n', 'e']]
      (by decide)
  exact ⟨v, reasoning, h1, h2.mpr (by decide), by rw [h5]; decide⟩

/-- Claim C7: `GetAnswer` mutates no state, returns the recorded answer
when one is set and the sentinel error string otherwise; in particular
after any sequence of pre-submission messages (register, reset,
readiness and fetch requests) it returns the sentinel, never a real
answer. -/
theorem C7_getAnswer (s : Coordinator) (a : String) (msgs : List PreSubmitMsg) :
    (handleGetAnswer s).1 = s ∧
    (s.answer = some a → (handleGetAnswer s).2 = a) ∧
    (s.answer = none → (handleGetAnswer s).2 = notReadySentinel) ∧
    (handleGetAnswer (runPreSubmit msgs)).2 = notReadySentinel := by
  refine ⟨rfl, fun h => by simp [handleGetAnswer, h], fun h => by simp [handleGetAnswer, h], ?_⟩
  have hnone : (runPreSubmit msgs).answer = none :=
    preSubmit_keeps_answer_none msgs initialCoordinator rfl
  simp [handleGetAnswer, hnone]

/-- Witness for C7: a set answer is returned as-is, and a fetch after
only a registration returns the sentinel. -/
theorem C7_getAnswer_witness :
    (handleGetAnswer ⟨[], none, [], some "42", 0⟩).2 = "42" ∧
    (handleGetAnswer (runPreSubmit [PreSubmitMsg.register "A"])).2 = notReadySentinel :=
  ⟨(C7_getAnswer ⟨[], none, [], some "42", 0⟩ "42" []).2.1 rfl,
   (C7_getAnswer initialCoordinator "42" [PreSubmitMsg.register "A"]).2.2.2⟩

/-- Claim C2: on `AnswerRefinement(text)` the Coordinator records the new
answer; then below the cap it increments the count, clears the feedback
map and re-broadcasts evaluation of the new answer to every registered
actor; at the cap it does not re-evaluate and instead overwrites every
recorded vote with `Good`, so that whenever the feedback map was full
and non-empty (as it is when a completed round produced a rejection),
the next readiness query returns `true` regardless of `text`. -/
theorem C2_refinement_cap (s : Coordinator) (text q : String)
    (hq : s.current_question = some q) :
    (s.evaluation_count < 5 →
      handleAnswerRefinement s text =
        some ({ s with answer := some text, feedback := [],
                       evaluation_count := s.evaluation_count + 1 },
              s.llm_actors.map (fun n => OutMsg.evaluateAnswer n q text), true)) ∧
    (5 ≤ s.evaluation_count →
      handleAnswerRefinement s text =
        some ({ s with answer := some text,
                       feedback := s.feedback.map (fun p => (p.1, Feedback.Good)) },
              [], true) ∧
      (s.feedback ≠ [] → s.feedback.length = s.llm_actors.length →
        (handleAnswerReadiness
          { s with answer := some text,
                   feedback := s.feedback.map (fun p => (p.1, Feedback.Good)) }).2 =
          true)) := by
  constructor
  · intro hlt
    have hmod : (s.evaluation_count + 1) % 2 ^ 32 = s.evaluation_count + 1 :=
      Nat.mod_eq_of_lt (by omega)
    by_cases he : s.llm_actors = []
    · simp [handleAnswerRefinement, hlt, he, hmod]
      omega
    · simp [handleAnswerRefinement, hlt, he, hq, hmod, List.isEmpty_iff]
      omega
  · intro hge
    refine ⟨by simp [handleAnswerRefinement, Nat.not_lt.mpr hge], fun hne hlen => ?_⟩
    simp [handleAnswerReadiness, List.all_eq_true, List.isEmpty_iff, hne, hlen]

/-- Witness for C2: a one-actor registry at the cap with a recorded
rejection is forced to `Good` and becomes ready. -/
theorem C2_refinement_cap_witness :
    handleAnswerRefinement
        ⟨["A"], some "Q", [("A", Feedback.NeedsRefinement)], some "old", 5⟩ "new" =
      some (⟨["A"], some "Q", [("A", Feedback.Good)], some "new", 5⟩, [], true) ∧
    (handleAnswerReadiness ⟨["A"], some "Q", [("A", Feedback.Good)], some "new", 5⟩).2 =
      true := by
  have h := (C2_refinement_cap
    ⟨["A"], some "Q", [("A", Feedback.NeedsRefinement)], some "old", 5⟩
    "new" "Q" rfl).2 (by decide)
  exact ⟨h.1.trans (by decide), h.2 (by decide) (by decide)⟩

/-- Claim C4 as stated is false on the code: the `AnswerQuestion` handler
does not clear the feedback map.  Concretely, a state holding a recorded
vote still holds it after the handler runs. -/
theorem C4_counterexample :
    ¬ (∀ (s s' : Coordinator) (text : String) (out : List OutMsg) (b : Bool),
        handleAnswerQuestion s text = some (s', out, b) → s'.feedback = []) := by
  intro hall
  have := hall ⟨["A"], some "Q", [("A", Feedback.NeedsRefinement)], none, 1⟩
    ⟨["A"], some "Q", [("A", Feedback.NeedsRefinement)], some "ans", 2⟩
    "ans" [OutMsg.evaluateAnswer "A" "Q" "ans"] true (by decide)
  exact absurd this (by decide)

/-- Claim C4 amended: on `AnswerQuestion(text)` the Coordinator records
`answer = text`, broadcasts an evaluation request carrying the current
question and this answer to every registered actor, and increments the
evaluation count; the feedback map is left unchanged, so after a submit
and its matching answer from a state whose feedback map was empty (as
after a reset), the feedback map is empty and the answer is set. -/
theorem C4_answerQuestion (s : Coordinator) (text q : String)
    (hq : s.current_question = some q) :
    (handleAnswerQuestion s text =
      some ({ s with answer := some text,
                     evaluation_count := (s.evaluation_count + 1) % 2 ^ 32 },
            s.llm_actors.map (fun n => OutMsg.evaluateAnswer n q text), true)) ∧
    (∀ (t : String) (r : Nat) (s1 s2 : Coordinator) (o1 o2 : List OutMsg) (b1 b2 : Bool),
      s.feedback = [] →
      handleAskQuestion s t r = some (s1, o1, b1) →
      handleAnswerQuestion s1 text = some (s2, o2, b2) →
      s2.feedback = [] ∧ s2.answer = some text) := by
  constructor
  · by_cases he : s.llm_actors = []
    · simp [handleAnswerQuestion, he]
    · simp [handleAnswerQuestion, he, hq, List.isEmpty_iff]
  · intro t r s1 s2 o1 o2 b1 b2 hfb hask hans
    have h1 : s1 = { s with current_question := some t } := handleAskQuestion_state hask
    have h2 : s2 = { s1 with answer := some text,
                             evaluation_count := (s1.evaluation_count + 1) % 2 ^ 32 } :=
      handleAnswerQuestion_state hans
    subst h1
    subst h2
    exact ⟨hfb, rfl⟩

/-- Witness for C4: the concrete post-reset scenario. -/
theorem C4_answerQuestion_witness :
    handleAnswerQuestion ⟨["A"], some "Q", [], none, 0⟩ "ans" =
      some (⟨["A"], some "Q", [], some "ans", 1⟩,
            [OutMsg.evaluateAnswer "A" "Q" "ans"], true) := by
  rw [(C4_answerQuestion ⟨["A"], some "Q", [], none, 0⟩ "ans" "Q" rfl).1]
  decide

/-- Claim C6 as stated is false on the code: the invariant "a non-empty
feedback map implies a recorded answer" is not preserved by every
handler.  `AnswerEvaluation` arriving at a state with no recorded answer
(possible for a stale vote after a reset) creates a feedback entry while
the answer stays unset. -/
theorem C6_counterexample :
    ¬ (∀ (s s' : Coordinator) (name : String) (ev : Feedback) (r : Nat)
        (out : List OutMsg) (b : Bool),
        VotesImplyAnswer s →
        handleAnswerEvaluation s name ev r = some (s', out, b) →
        VotesImplyAnswer s') := by
  intro hall
  have := hall ⟨["A"], none, [], none, 0⟩ ⟨["A"], none, [("A", Feedback.Good)], none, 0⟩
    "A" Feedback.Good 0 [] true (fun h => absurd rfl h) (by decide)
  exact absurd (this (by decide)) (by decide)

/-- Claim C6 amended: the invariant "a non-empty feedback map implies a
recorded answer" holds after a reset and is preserved by the register,
readiness, fetch, ask, answer and refinement handlers; the evaluation
handler preserves it whenever an answer is already recorded — it can
violate it only when a vote arrives while no answer is set (a stale vote
after a reset). -/
theorem C6_invariant_preservation (s : Coordinator) :
    VotesImplyAnswer s.reset ∧
    (VotesImplyAnswer s → ∀ n, VotesImplyAnswer (handleRegister s n).1) ∧
    (VotesImplyAnswer s → VotesImplyAnswer (handleAnswerReadiness s).1) ∧
    (VotesImplyAnswer s → VotesImplyAnswer (handleGetAnswer s).1) ∧
    (VotesImplyAnswer s → ∀ (q : String) (r : Nat) (s' : Coordinator)
      (out : List OutMsg) (b : Bool),
      handleAskQuestion s q r = some (s', out, b) → VotesImplyAnswer s') ∧
    (∀ (text : String) (s' : Coordinator) (out : List OutMsg) (b : Bool),
      handleAnswerQuestion s text = some (s', out, b) → VotesImplyAnswer s') ∧
    (∀ (text : String) (s' : Coordinator) (out : List OutMsg) (b : Bool),
      handleAnswerRefinement s text = some (s', out, b) → VotesImplyAnswer s') ∧
    (s.answer.isSome = true → ∀ (n : String) (ev : Feedback) (r : Nat)
      (s' : Coordinator) (out : List OutMsg) (b : Bool),
      handleAnswerEvaluation s n ev r = some (s', out, b) → VotesImplyAnswer s') := by
  refine ⟨fun h => absurd rfl h, fun h n => h, fun h => h, fun h => h,
          ?_, ?_, ?_, ?_⟩
  · intro h q r s' out b hstep
    rw [handleAskQuestion_state hstep]
    exact h
  · intro text s' out b hstep
    rw [handleAnswerQuestion_state hstep]
    intro _
    rfl
  · intro text s' out b hstep
    intro _
    rw [handleAnswerRefinement_answer hstep]
    rfl
  · intro hsome n ev r s' out b hstep
    rw [handleAnswerEvaluation_state hstep]
    intro _
    exact hsome

/-- Witness for C6: a vote of an incomplete round recorded while an answer is set keeps
the invariant. -/
theorem C6_invariant_preservation_witness :
    VotesImplyAnswer
      ⟨["A"], some "Q", [("A", Feedback.Good), ("B", Feedback.Good)], some "ans", 1⟩ :=
  (C6_invariant_preservation
      ⟨["A"], some "Q", [("A", Feedback.Good)], some "ans", 1⟩).2.2.2.2.2.2.2
    (by decide) "B" Feedback.Good 0
    ⟨["A"], some "Q", [("A", Feedback.Good), ("B", Feedback.Good)], some "ans", 1⟩
    [] true (by decide)

/-- Claim C9: when an inserted vote completes the round and not every
verdict is `Good`, the list of names that voted `NeedsRefinement` is
non-empty, the choice among them succeeds for every random index, the
chosen name is one of them, and the handler sends it — provided every
vote belongs to a registered actor and a question and answer are
recorded — a `RefineAnswer` carrying the current question and answer. -/
theorem C9_refinement_selection (s : Coordinator) (name q a : String)
    (ev : Feedback) (r : Nat)
    (hq : s.current_question = some q) (ha : s.answer = some a)
    (hsub : ∀ p ∈ insertFeedback s.feedback name ev, p.1 ∈ s.llm_actors)
    (hlen : (insertFeedback s.feedback name ev).length = s.llm_actors.length)
    (hnot : ¬ ∀ p ∈ insertFeedback s.feedback name ev, p.2 = Feedback.Good) :
    ((insertFeedback s.feedback name ev).filter
        (fun p => p.2 = Feedback.NeedsRefinement)).map Prod.fst ≠ [] ∧
    ∃ selected_key,
      choose (((insertFeedback s.feedback name ev).filter
        (fun p => p.2 = Feedback.NeedsRefinement)).map Prod.fst) r = some selected_key ∧
      selected_key ∈ ((insertFeedback s.feedback name ev).filter
        (fun p => p.2 = Feedback.NeedsRefinement)).map Prod.fst ∧
      handleAnswerEvaluation s name ev r =
        some ({ s with feedback := insertFeedback s.feedback name ev },
              [OutMsg.refineAnswer selected_key q a], true) := by
  have hkeys : ((insertFeedback s.feedback name ev).filter
      (fun p => p.2 = Feedback.NeedsRefinement)).map Prod.fst ≠ [] := by
    push_neg at hnot
    obtain ⟨p, hp, hpv⟩ := hnot
    have hpn : p.2 = Feedback.NeedsRefinement := by
      cases hv : p.2
      · exact absurd hv hpv
      · rfl
    have hpf : p ∈ (insertFeedback s.feedback name ev).filter
        (fun p => p.2 = Feedback.NeedsRefinement) :=
      List.mem_filter.mpr ⟨hp, by simp [hpn]⟩
    intro hnil
    rw [List.map_eq_nil_iff] at hnil
    rw [hnil] at hpf
    exact absurd hpf (List.not_mem_nil p)
  obtain ⟨sel, hch, hmem⟩ := choose_eq_some_of_ne_nil _ r hkeys
  refine ⟨hkeys, sel, hch, hmem, ?_⟩
  have hsel : sel ∈ s.llm_actors := by
    obtain ⟨p, hpf, hp1⟩ := List.mem_map.mp hmem
    exact hp1 ▸ hsub p (List.mem_of_mem_filter hpf)
  have hall : ¬ ((insertFeedback s.feedback name ev).all
      (fun p => p.2 = Feedback.Good) = true) := by
    rw [List.all_eq_true]
    intro hx
    exact hnot (fun p hp => of_decide_eq_true (hx p hp))
  simp only [handleAnswerEvaluation]
  rw [if_pos hlen, if_pos hall, hch, hq, ha]
  simp [hsel]

/-- Witness for C9: a completed two-actor round with one rejection sends
the refinement request to the rejecting actor. -/
theorem C9_refinement_selection_witness :
    handleAnswerEvaluation ⟨["A", "B"], some "Q", [("A", Feedback.Good)], some "ans", 1⟩
        "B" Feedback.NeedsRefinement 0 =
      some (⟨["A", "B"], some "Q",
             [("A", Feedback.Good), ("B", Feedback.NeedsRefinement)], some "ans", 1⟩,
            [OutMsg.refineAnswer "B" "Q" "ans"], true) := by
  obtain ⟨-, sel, hch, -, heq⟩ := C9_refinement_selection
    ⟨["A", "B"], some "Q", [("A", Feedback.Good)], some "ans", 1⟩
    "B" "Q" "ans" Feedback.NeedsRefinement 0 rfl rfl (by decide) (by decide) (by decide)
  have hsel : "B" = sel := Option.some.inj ((by decide : choose
    (((insertFeedback [("A", Feedback.Good)] "B" Feedback.NeedsRefinement).filter
      (fun p => p.2 = Feedback.NeedsRefinement)).map Prod.fst) 0 = some "B").symm.trans hch)
  rw [← hsel] at heq
  exact heq.trans (by decide)

end LlmConsensus
